import Mathlib

/-!
Verification development for the koishi-plugin-vrc-activity-calendar repository
(src/lib/index.js).  The definitions below are a shallow embedding of the
plugin's acquisition / classification pipeline:

* `parseTimeRange`, `getCurrentOrNearbyActivities` embed the classifier
  (src/lib/index.js lines 439-561), including the two regular expressions,
  the `split(' - ')` / `new Date(...)` re-parsing in the ongoing/future/past
  filters, and the sort comparator;
* `updateJapanActivities` / `updateChinaActivities` embed the snapshot update
  path (lines 891-925);
* `fetchJapanActivities` / `fetchChinaActivities` / `fetchFromWebpage` embed
  the acquisition fallback chain (lines 85-437) with network / browser
  outcomes supplied as explicit oracle arguments and exceptions modelled by
  `Except`.

JavaScript specifics modelled explicitly: machine dates are linearised to
minutes (`Int`) through the proleptic Gregorian calendar; the
`new Date(y, m, d, h, mi)` constructor normalises out-of-range fields and
applies the 0-99 → 1900-1999 year rule; `new Date(string)` is modelled for
the ES "Date Time String Format" shape `YYYY-MM-DDTHH:MM` reachable here and
yields `none` (Invalid Date) on every other shape; `Array.prototype.sort` is
modelled as a stable insertion sort whose relation places `a` before `b`
exactly when the comparator is ≤ 0 (an invalid-date comparison yields NaN,
which ES sort treats as 0).
-/

/-! ## Characters and JavaScript string helpers -/

/-- Numeric value of a decimal digit character. -/
def digitVal (c : Char) : Nat := c.toNat - 48

/-- Whitespace class of the JavaScript regular-expression `\s` escape
(restricted to the ASCII members, the only ones arising here). -/
def jsIsSpace (c : Char) : Bool :=
  c = ' ' || c = '\t' || c = '\n' || c = '\r' || c.toNat = 11 || c.toNat = 12

/-- Consume exactly `n` decimal digits, returning their value and the rest
(the regex fragments `\d{4}` and `\d{2}`). -/
def takeDigitsExact : Nat → Nat → List Char → Option (Nat × List Char)
  | 0, acc, cs => some (acc, cs)
  | _ + 1, _, [] => none
  | n + 1, acc, c :: cs =>
    if c.isDigit then takeDigitsExact n (acc * 10 + digitVal c) cs else none

/-- Consume one or two decimal digits greedily (the regex fragment `\d{1,2}`;
in both regexes of the source every such group is followed by a non-digit,
so the greedy choice never needs backtracking). -/
def takeDigits12 : List Char → Option (Nat × List Char)
  | [] => none
  | [c] => if c.isDigit then some (digitVal c, []) else none
  | c1 :: c2 :: cs =>
    if c1.isDigit then
      if c2.isDigit then some (digitVal c1 * 10 + digitVal c2, cs)
      else some (digitVal c1, c2 :: cs)
    else none

/-- Consume one expected character. -/
def expectChar (c : Char) : List Char → Option (List Char)
  | [] => none
  | x :: cs => if x = c then some cs else none

/-- The regex fragment `\s*`. -/
def skipSpaces (cs : List Char) : List Char := cs.dropWhile jsIsSpace

/-- The regex fragment `\s+`. -/
def expectSpaces1 : List Char → Option (List Char)
  | [] => none
  | c :: cs => if jsIsSpace c then some (skipSpaces cs) else none

/-- The regex fragment `\s?` when followed by a non-space literal
(taking the optional space never needs backtracking there). -/
def dropOneSpace : List Char → List Char
  | [] => []
  | c :: cs => if jsIsSpace c then cs else c :: cs

/-- The ten captured fields of the absolute datetime-range regex
`(\d{4})-(\d{1,2})-(\d{1,2})\s+(\d{1,2}):(\d{2})\s*-\s*(\d{4})-(\d{1,2})-(\d{1,2})\s+(\d{1,2}):(\d{2})`
of src/lib/index.js line 444. -/
structure AbsFields where
  sy : Nat
  smo : Nat
  sd : Nat
  sh : Nat
  smi : Nat
  ey : Nat
  emo : Nat
  ed : Nat
  eh : Nat
  emi : Nat
deriving DecidableEq, Repr

/-- The four captured fields of the bare clock-time regex
`(\d{1,2}):(\d{2})\s?-\s?(\d{1,2}):(\d{2})` of src/lib/index.js line 463. -/
structure BareFields where
  sh : Nat
  sm : Nat
  eh : Nat
  em : Nat
deriving DecidableEq, Repr

/-- The five fields of one half of the absolute regex,
`(\d{4})-(\d{1,2})-(\d{1,2})\s+(\d{1,2}):(\d{2})`. -/
structure HalfFields where
  y : Nat
  mo : Nat
  d : Nat
  h : Nat
  mi : Nat
deriving DecidableEq, Repr

/-- Match one datetime half `(\d{4})-(\d{1,2})-(\d{1,2})\s+(\d{1,2}):(\d{2})`
at the start of the input, returning the fields and the rest. -/
def matchHalfAt (cs : List Char) : Option (HalfFields × List Char) :=
  (takeDigitsExact 4 0 cs).bind fun (y, cs) =>
  (expectChar '-' cs).bind fun cs =>
  (takeDigits12 cs).bind fun (mo, cs) =>
  (expectChar '-' cs).bind fun cs =>
  (takeDigits12 cs).bind fun (d, cs) =>
  (expectSpaces1 cs).bind fun cs =>
  (takeDigits12 cs).bind fun (h, cs) =>
  (expectChar ':' cs).bind fun cs =>
  (takeDigitsExact 2 0 cs).bind fun (mi, cs) =>
  some (⟨y, mo, d, h, mi⟩, cs)

/-- Match the absolute datetime-range regex at the start of the input:
one half, `\s*-\s*`, and a second half. -/
def matchAbsAt (cs : List Char) : Option AbsFields :=
  (matchHalfAt cs).bind fun (s, cs) =>
  (expectChar '-' (skipSpaces cs)).bind fun cs =>
  (matchHalfAt (skipSpaces cs)).bind fun (e, _) =>
  some ⟨s.y, s.mo, s.d, s.h, s.mi, e.y, e.mo, e.d, e.h, e.mi⟩

/-- JavaScript `String.prototype.match` for the absolute datetime-range regex:
the match may start at any index, scanning left to right. -/
def searchAbs : List Char → Option AbsFields
  | [] => none
  | c :: cs =>
    match matchAbsAt (c :: cs) with
    | some f => some f
    | none => searchAbs cs

/-- Match the bare clock-time regex at the start of the input. -/
def matchBareAt (cs : List Char) : Option BareFields :=
  (takeDigits12 cs).bind fun (sh, cs) =>
  (expectChar ':' cs).bind fun cs =>
  (takeDigitsExact 2 0 cs).bind fun (sm, cs) =>
  (expectChar '-' (dropOneSpace cs)).bind fun cs =>
  (takeDigits12 (dropOneSpace cs)).bind fun (eh, cs) =>
  (expectChar ':' cs).bind fun cs =>
  (takeDigitsExact 2 0 cs).bind fun (em, _) =>
  some ⟨sh, sm, eh, em⟩

/-- JavaScript `String.prototype.match` for the bare clock-time regex. -/
def searchBare : List Char → Option BareFields
  | [] => none
  | c :: cs =>
    match matchBareAt (c :: cs) with
    | some f => some f
    | none => searchBare cs

/-- JavaScript `split(' - ')`: cut at every occurrence of the three-character
separator, leftmost first. -/
def splitSDSAux : List Char → List Char → List (List Char)
  | [], acc => [acc.reverse]
  | ' ' :: '-' :: ' ' :: rest, acc => acc.reverse :: splitSDSAux rest []
  | c :: rest, acc => splitSDSAux rest (c :: acc)

/-- JavaScript `s.split(' - ')`. -/
def splitSDS (cs : List Char) : List (List Char) := splitSDSAux cs []

/-- JavaScript `s.split(' - ')[0]`; `split` never returns an empty array. -/
def firstPart (cs : List Char) : List Char :=
  match splitSDS cs with
  | [] => []
  | p :: _ => p

/-- JavaScript `s.replace(' ', 'T')`: only the first space is replaced. -/
def replaceFirstSpaceT : List Char → List Char
  | [] => []
  | c :: cs => if c = ' ' then 'T' :: cs else c :: replaceFirstSpaceT cs

/-- Starts-with test on character lists. -/
def listStartsWith : List Char → List Char → Bool
  | _, [] => true
  | [], _ :: _ => false
  | c :: cs, d :: ds => c = d && listStartsWith cs ds

/-- Substring occurrence test on character lists. -/
def listContainsSub : List Char → List Char → Bool
  | [], sub => sub.isEmpty
  | c :: cs, sub => listStartsWith (c :: cs) sub || listContainsSub cs sub

/-- JavaScript `s.includes(sub)` (substring containment). -/
def strIncludes (s sub : String) : Bool := listContainsSub s.toList sub.toList

/-! ## JavaScript date arithmetic

Instants are linearised to minutes in the (locale-implied) local timeline:
`day-number * 1440 + hour * 60 + minute`, where the day number follows the
proleptic Gregorian calendar.  Only the order of instants matters to the
source code, and this linearisation is order-isomorphic to the engine's
epoch-milliseconds for the minute-granularity values arising here. -/

/-- Day number of a civil date (proleptic Gregorian, `m` in 1..12). -/
def daysFromCivil (y m d : Int) : Int :=
  let y2 := if m ≤ 2 then y - 1 else y
  let era := Int.fdiv y2 400
  let yoe := y2 - era * 400
  let mp := if m ≤ 2 then m + 9 else m - 3
  let doy := Int.fdiv (153 * mp + 2) 5 + d - 1
  let doe := yoe * 365 + Int.fdiv yoe 4 - Int.fdiv yoe 100 + doy
  era * 146097 + doe - 719468

/-- Day number produced by the JS `Date` constructor's field normalisation:
an arbitrary month index is folded into the year and an arbitrary
day-of-month is folded into the day number. -/
def jsMakeDay (y mIdx d : Int) : Int :=
  let ym := y * 12 + mIdx
  let yy := Int.fdiv ym 12
  let mm := ym - yy * 12
  daysFromCivil yy (mm + 1) 1 + (d - 1)

/-- Instant built by `new Date(y, mIdx, d, h, mi)`, including the ES rule
mapping years 0-99 to 1900-1999. -/
def jsMkInstant (y mIdx d h mi : Int) : Int :=
  let y2 := if 0 ≤ y ∧ y ≤ 99 then y + 1900 else y
  jsMakeDay y2 mIdx d * 1440 + h * 60 + mi

/-- Gregorian leap-year test. -/
def isLeapYear (y : Int) : Bool :=
  (y % 4 == 0 && !(y % 100 == 0)) || y % 400 == 0

/-- Days in a month (`m` in 1..12). -/
def daysInMonth (y m : Int) : Int :=
  if m = 1 ∨ m = 3 ∨ m = 5 ∨ m = 7 ∨ m = 8 ∨ m = 10 ∨ m = 12 then 31
  else if m = 2 then (if isLeapYear y then 29 else 28)
  else 30

/-- JavaScript `new Date(string)` for the ES Date Time String Format shape
`YYYY-MM-DDTHH:MM` (a date-time without offset is local time); `24:00` is
permitted by ES.  Every other shape is modelled as Invalid Date (`none`),
matching the engines on the strings reachable in this plugin. -/
def jsDateParse (cs : List Char) : Option Int :=
  match cs with
  | [y1, y2, y3, y4, c1, mo1, mo2, c2, d1, d2, t, h1, h2, c3, mi1, mi2] =>
    if y1.isDigit ∧ y2.isDigit ∧ y3.isDigit ∧ y4.isDigit ∧ c1 = '-' ∧
        mo1.isDigit ∧ mo2.isDigit ∧ c2 = '-' ∧ d1.isDigit ∧ d2.isDigit ∧
        t = 'T' ∧ h1.isDigit ∧ h2.isDigit ∧ c3 = ':' ∧ mi1.isDigit ∧ mi2.isDigit then
      let y : Int := ((digitVal y1 * 10 + digitVal y2) * 10 + digitVal y3) * 10 + digitVal y4
      let mo : Int := digitVal mo1 * 10 + digitVal mo2
      let d : Int := digitVal d1 * 10 + digitVal d2
      let h : Int := digitVal h1 * 10 + digitVal h2
      let mi : Int := digitVal mi1 * 10 + digitVal mi2
      if 1 ≤ mo ∧ mo ≤ 12 ∧ 1 ≤ d ∧ d ≤ daysInMonth y mo ∧
          ((h ≤ 23 ∧ mi ≤ 59) ∨ (h = 24 ∧ mi = 0)) then
        some (daysFromCivil y mo d * 1440 + h * 60 + mi)
      else none
    else none
  | _ => none

/-- The current clock reading taken by `new Date()` inside the classifier
(a real wall-clock civil datetime). -/
structure Now where
  year : Nat
  month : Nat
  day : Nat
  hour : Nat
  minute : Nat
deriving DecidableEq, Repr

/-- `now.getHours() * 60 + now.getMinutes()` (line 441). -/
def currentMinutes (n : Now) : Int := (n.hour : Int) * 60 + n.minute

/-- Linearised instant of the current clock reading. -/
def nowInstant (n : Now) : Int :=
  jsMakeDay n.year ((n.month : Int) - 1) n.day * 1440 + (n.hour : Int) * 60 + n.minute

/-! ## The canonical event record and the time-range parser -/

/-- Event record as built by the fetchers (duck-typed object in the source;
fields absent for a given source are the empty string / `none`). -/
structure Activity where
  date : String := ""
  title : String := ""
  description : String := ""
  link : String := ""
  organizer : String := ""
  status : String := ""
  created : String := ""
  updated : String := ""
  initiator : String := ""
  ctype : String := ""
  originalTitle : Option String := none
  translatedDescription : Option String := none
  tag : Option String := none
deriving DecidableEq, Repr

/-- The `{...a, tag}` object spread used by the classifier: a shallow copy
with only the `tag` field (re)placed. -/
def withTag (t : String) (a : Activity) : Activity := { a with tag := some t }

/-- Parsed time window `{start, end}` in minutes (`endM` embeds the JS field
`end`, a reserved word in Lean). -/
structure TimeRange where
  start : Int
  endM : Int
deriving DecidableEq, Repr

/-- `new Date(startYear, startMonth - 1, startDay, startHour, startMinute)`
(line 449) on the regex capture fields. -/
def absStartInstant (f : AbsFields) : Int :=
  jsMkInstant f.sy ((f.smo : Int) - 1) f.sd f.sh f.smi

/-- `new Date(endYear, endMonth - 1, endDay, endHour, endMinute)` (line 450). -/
def absEndInstant (f : AbsFields) : Int :=
  jsMkInstant f.ey ((f.emo : Int) - 1) f.ed f.eh f.emi

/-- `parseTimeRange` of src/lib/index.js lines 443-470.  The absolute
datetime-range regex is tried first; an absolute window already over returns
`null`; one containing now returns the full-day sentinel; otherwise the
start's minute-of-day offset plus a day.  The bare clock-time branch wraps an
end at-or-before its start forward by 24*60 minutes. -/
def parseTimeRange (now : Now) (range : String) : Option TimeRange :=
  match searchAbs range.toList with
  | some f =>
    let startDate := absStartInstant f
    let endDate := absEndInstant f
    let nowDate := nowInstant now
    if endDate < nowDate then none
    else if startDate ≤ nowDate ∧ endDate ≥ nowDate then some ⟨0, 1440⟩
    else
      let startTotalMinutes : Int := (f.sh : Int) * 60 + f.smi
      some ⟨startTotalMinutes, startTotalMinutes + 1440⟩
  | none =>
    match searchBare range.toList with
    | none => none
    | some b =>
      let start : Int := (b.sh : Int) * 60 + b.sm
      let e0 : Int := (b.eh : Int) * 60 + b.em
      some ⟨start, if e0 ≤ start then e0 + 1440 else e0⟩

/-! ## The classifier -/

/-- The shape test of lines 476, 501, 514 and 531 selecting the
absolute-datetime handling: the date text contains a dash, contains a colon,
and the global dash match finds at least two dashes. -/
def isAbsShape (s : String) : Bool :=
  s.toList.contains '-' && s.toList.contains ':' && decide (s.toList.count '-' ≥ 2)

/-- The ongoing filter body (lines 472-491).  Invalid dates make both
comparisons false, as NaN comparisons do in JS. -/
def ongoingPred (now : Now) (a : Activity) : Bool :=
  match parseTimeRange now a.date with
  | none => false
  | some _range =>
    if isAbsShape a.date then
      match splitSDS a.date.toList with
      | [p1, p2] =>
        (match jsDateParse (replaceFirstSpaceT p1) with
          | some s => decide (s ≤ nowInstant now)
          | none => false) &&
        (match jsDateParse (replaceFirstSpaceT p2) with
          | some e => decide (nowInstant now ≤ e)
          | none => false)
      | _ => false
    else
      decide (currentMinutes now ≥ _range.start) && decide (currentMinutes now ≤ _range.endM)

/-- The future filter body (lines 497-512). -/
def futurePred (now : Now) (a : Activity) : Bool :=
  match parseTimeRange now a.date with
  | none => false
  | some _range =>
    if isAbsShape a.date then
      match splitSDS a.date.toList with
      | [p1, _p2] =>
        (match jsDateParse (replaceFirstSpaceT p1) with
          | some s => decide (s > nowInstant now)
          | none => false)
      | _ => false
    else
      decide (_range.start > currentMinutes now)

/-- The past filter body (lines 527-543). -/
def pastPred (now : Now) (a : Activity) : Bool :=
  match parseTimeRange now a.date with
  | none => false
  | some _range =>
    if isAbsShape a.date then
      match splitSDS a.date.toList with
      | [_p1, p2] =>
        (match jsDateParse (replaceFirstSpaceT p2) with
          | some e => decide (e < nowInstant now)
          | none => false)
      | _ => false
    else
      decide (_range.endM < currentMinutes now)

/-- The sort comparator (lines 513-524), branching on the first argument's
date shape; a comparison involving an invalid date is NaN, which ES sort
treats as 0.  (On members of the future partition both `parseTimeRange`
results are non-null; a null one would throw in JS and is modelled as 0.) -/
def jsSortCmp (now : Now) (a b : Activity) : Int :=
  if isAbsShape a.date then
    match jsDateParse (replaceFirstSpaceT (firstPart a.date.toList)),
        jsDateParse (replaceFirstSpaceT (firstPart b.date.toList)) with
    | some x, some y => x - y
    | _, _ => 0
  else
    match parseTimeRange now a.date, parseTimeRange now b.date with
    | some ra, some rb => ra.start - rb.start
    | _, _ => 0

/-- ES `Array.prototype.sort` places `a` no later than `b` exactly when the
comparator result is ≤ 0. -/
def jsSortLe (now : Now) (a b : Activity) : Prop := jsSortCmp now a b ≤ 0

instance instDecJsSortLe (now : Now) : DecidableRel (jsSortLe now) :=
  fun a b => inferInstanceAs (Decidable (jsSortCmp now a b ≤ 0))

/-- `activities.filter(...)` for ongoing (line 472). -/
def ongoingList (now : Now) (acts : List Activity) : List Activity :=
  acts.filter (ongoingPred now)

/-- `activities.filter(...)` for the future partition (line 497), before sorting. -/
def futureList (now : Now) (acts : List Activity) : List Activity :=
  acts.filter (futurePred now)

/-- `activities.filter(...).sort(...)` (lines 497-525): the future partition
sorted stably by the comparator. -/
def futureSorted (now : Now) (acts : List Activity) : List Activity :=
  List.insertionSort (jsSortLe now) (futureList now acts)

/-- `activities.filter(...)` for the past partition (line 527). -/
def pastList (now : Now) (acts : List Activity) : List Activity :=
  acts.filter (pastPred now)

/-- Lines 545-550: `last = past[past.length - 1]`, `next = future[0]`,
pushed in that order when present. -/
def prevNextResult (now : Now) (acts : List Activity) : List Activity :=
  (match (pastList now acts).getLast? with
    | some a => [withTag "上一个活动" a]
    | none => []) ++
  (match (futureSorted now acts).head? with
    | some a => [withTag "下一个活动" a]
    | none => [])

/-- `getCurrentOrNearbyActivities` of src/lib/index.js lines 439-561
(`maxActivities` is `config.maxActivities`; the local consts `ongoing`,
`future`, `past`, `result` of the source are the top-level definitions
above). -/
def getCurrentOrNearbyActivities (maxActivities : Nat) (now : Now)
    (activities : List Activity) : List Activity :=
  if (ongoingList now activities).length > 0 then
    (ongoingList now activities).map (withTag "当前活动")
  else if (prevNextResult now activities).length = 0 ∧ activities.length > 0 then
    if (futureSorted now activities).length > 0 then
      ((futureSorted now activities).take maxActivities).map (withTag "即将到来")
    else if activities.length > 0 then
      (activities.take maxActivities).map (withTag "活动列表")
    else prevNextResult now activities
  else prevNextResult now activities

/-! ## Snapshot store and update path (lines 891-925)

The fetch result is passed in as a value: the fetchers below never raise, so
the `try` wrapper of the update functions never skips these assignments.  The
cached image buffer produced afterwards is render-collaborator state outside
this embedding. -/

/-- Per-locale snapshot: the module-level mutable pair
(`japanActivities`/`japanLastUpdateTime`, resp. the china pair). -/
structure Snapshot where
  events : List Activity
  lastUpdateTime : Option Now
deriving DecidableEq, Repr

/-- `updateJapanActivities` (lines 891-907): keep the previous events on an
empty fetch, always stamp the update time. -/
def updateJapanActivities (st : Snapshot) (newActivities : List Activity)
    (now : Now) : Snapshot :=
  { events := if newActivities.length > 0 then newActivities else st.events,
    lastUpdateTime := some now }

/-- `updateChinaActivities` (lines 909-925): same policy for the china locale. -/
def updateChinaActivities (st : Snapshot) (newActivities : List Activity)
    (now : Now) : Snapshot :=
  { events := if newActivities.length > 0 then newActivities else st.events,
    lastUpdateTime := some now }

/-! ## Acquisition: fetchers and the fallback chain (lines 85-437)

Network and browser outcomes are oracle arguments; a JS exception is the
`Except.error` of the corresponding oracle; `try`/`catch` is the match on it. -/

/-- JavaScript truthiness of an optional string field: absent or empty is falsy. -/
def truthy : Option String → Bool
  | none => false
  | some s => s ≠ ""

/-- JavaScript `x || d` for an optional string field. -/
def orDefault (o : Option String) (d : String) : String :=
  match o with
  | some s => if s = "" then d else s
  | none => d

/-- One item of the Google Calendar API response consumed by
`fetchJapanActivities` (lines 111-151). -/
structure GCalEvent where
  startDateTime : Option String := none
  endDateTime : Option String := none
  summary : Option String := none
  description : Option String := none
  htmlLink : Option String := none
  organizerDisplayName : Option String := none
  status : Option String := none
  created : Option String := none
  updated : Option String := none
deriving DecidableEq, Repr

/-- Shape of the Google Calendar API response as tested on line 101:
falsy response, a response without a proper `items` array, or the items
(a `none` item models a non-object entry, skipped on line 112). -/
inductive JapanResponse where
  | empty : JapanResponse
  | noItems : JapanResponse
  | items : List (Option GCalEvent) → JapanResponse
deriving DecidableEq, Repr

/-- Activity built from one calendar item (lines 114-148).  `fmt` is the
locale-dependent `toLocaleString` rendering of the start/end datetimes
(its `try` wrapper never fires: neither `new Date` nor `toLocaleString`
throws here); `trans` is the translation collaborator, which returns its
input on any failure. -/
def buildJapanActivity (fmt : String → String → String) (trans : String → String)
    (e : GCalEvent) : Activity :=
  let dateDisplay :=
    if truthy e.startDateTime ∧ truthy e.endDateTime then
      fmt (e.startDateTime.getD "") (e.endDateTime.getD "")
    else "时间未知"
  let base : Activity :=
    { date := dateDisplay,
      title := orDefault e.summary "未命名活动",
      description := orDefault e.description "",
      link := orDefault e.htmlLink "",
      organizer := orDefault e.organizerDisplayName "",
      status := orDefault e.status "",
      created := orDefault e.created "",
      updated := orDefault e.updated "" }
  if base.title ≠ "" ∧ base.title ≠ "未命名活动" then
    { base with originalTitle := some base.title,
                translatedDescription := some (trans base.title) }
  else base

/-- The japan validity filter (lines 153-163). -/
def japanValidFilter (l : List Activity) : List Activity :=
  l.filter fun a =>
    a.title ≠ "" && a.title ≠ "未命名活动" && a.status == "confirmed" &&
    !strIncludes a.title "祝日" && !strIncludes a.title "休日" &&
    !strIncludes a.title "日历" && !strIncludes a.title "カレンダー" &&
    !strIncludes a.title "定例" && !strIncludes a.title "定期"

/-- One event object of the rlvrc API response consumed by
`fetchChinaActivities` (lines 218-244). -/
structure ChinaEvent where
  starttime : Option String := none
  endtime : Option String := none
  time : Option String := none
  startdate : Option String := none
  enddate : Option String := none
  dateF : Option String := none
  title : Option String := none
  brief : Option String := none
  detail : Option String := none
  tagF : Option String := none
  initiator : Option String := none
  ctype : Option String := none
deriving DecidableEq, Repr

/-- Shape of the rlvrc API response as tested on lines 201-216: falsy
response, an object with an `Activity` array, a plain array, or an
unrecognized format. -/
inductive ChinaResponse where
  | empty : ChinaResponse
  | activityField : List (Option ChinaEvent) → ChinaResponse
  | plainArray : List (Option ChinaEvent) → ChinaResponse
  | unrecognized : ChinaResponse
deriving DecidableEq, Repr

/-- Activity built from one china event (lines 218-244). -/
def buildChinaActivity (e : ChinaEvent) : Activity :=
  let dateDisplay :=
    if truthy e.starttime ∧ truthy e.endtime then
      (e.starttime.getD "") ++ " - " ++ (e.endtime.getD "")
    else if truthy e.time then e.time.getD ""
    else if truthy e.startdate ∧ truthy e.enddate then
      (e.startdate.getD "") ++ " - " ++ (e.enddate.getD "")
    else if truthy e.dateF then e.dateF.getD ""
    else "时间未知"
  { date := dateDisplay,
    title := orDefault e.title "未命名活动",
    description := orDefault e.brief (orDefault e.detail (orDefault e.tagF "")),
    link := "",
    initiator := orDefault e.initiator "",
    ctype := orDefault e.ctype "" }

/-- The china validity filter (lines 246-252). -/
def chinaValidFilter (l : List Activity) : List Activity :=
  l.filter fun a =>
    a.title ≠ "" && a.title ≠ "未命名活动" &&
    !strIncludes a.title "测试" && !strIncludes a.title "Test" &&
    a.date ≠ "时间未知"

/-- One scraped `.event-card` of the rlvrc page (lines 308-330); an absent
element yields the placeholder defaults of lines 317-319. -/
structure RawCard where
  title : Option String := none
  time : Option String := none
  description : Option String := none
deriving DecidableEq, Repr

/-- Activity built from one scraped card (lines 317-326). -/
def buildCardActivity (c : RawCard) : Activity :=
  { date := c.time.getD "时间未知",
    title := c.title.getD "未命名活动",
    description := c.description.getD "",
    link := "" }

/-- The scraped-page noise-keyword filter over title and description
(lines 334-343). -/
def rlvrcKeywordFilter (l : List Activity) : List Activity :=
  l.filter fun a =>
    let text := a.title ++ " " ++ a.description
    !(strIncludes text "祝日" || strIncludes text "休日" || strIncludes text "七五三" ||
      strIncludes text "勤労感謝" || strIncludes text "成人の日" || strIncludes text "建国記念" ||
      strIncludes text "春分の日" || strIncludes text "昭和の日" || strIncludes text "憲法記念" ||
      strIncludes text "みどりの日" || strIncludes text "こどもの日" || strIncludes text "海の日" ||
      strIncludes text "山の日" || strIncludes text "敬老の日" || strIncludes text "文化の日" ||
      strIncludes text "勤労感謝の日" || strIncludes text "天皇誕生日" || strIncludes text "日历" ||
      strIncludes text "カレンダー")

/-- Outcome of one iframe of the google-calendar scraping loop
(lines 360-427): skipped (no content frame / not a calendar frame), a
throwing extraction (caught, loop continues), or an extracted list
(returned immediately, even when empty). -/
inductive FrameResult where
  | skip : FrameResult
  | fail : FrameResult
  | extracted : List Activity → FrameResult
deriving DecidableEq, Repr

/-- The iframe loop of lines 363-427 followed by the empty return of
line 430. -/
def scanFrames : List FrameResult → List Activity
  | [] => []
  | FrameResult.skip :: rest => scanFrames rest
  | FrameResult.fail :: rest => scanFrames rest
  | FrameResult.extracted l :: _ => l

/-- `fetchFromWebpage` (lines 292-437).  `setup` is the page
creation/navigation prelude (an error there lands in the outer catch of
lines 431-433, which returns `[]`); `isRlvrc` is the `url.includes('rlvrc.cn')`
branch test; `rlvrcCards` is the card-extraction outcome whose error lands in
the inner catch of lines 355-358; `frames` drives the google-calendar loop.
The `finally` page close swallows its own errors. -/
def fetchFromWebpage (setup : Except Unit Unit) (isRlvrc : Bool)
    (rlvrcCards : Except Unit (List RawCard)) (frames : List FrameResult) :
    Except Unit (List Activity) :=
  match setup with
  | Except.error _ => Except.ok []
  | Except.ok _ =>
    if isRlvrc then
      match rlvrcCards with
      | Except.error _ => Except.ok []
      | Except.ok cards =>
        Except.ok (rlvrcKeywordFilter (cards.map buildCardActivity))
    else Except.ok (scanFrames frames)

/-- `fetchJapanActivities` (lines 85-185).  A malformed response (line 101)
or a thrown request (line 179) falls back to `fetchFromWebpage` on
https://vrceve.com/ with no surrounding catch: an error of the fallback
would propagate (the fallback never errors, proved below). -/
def fetchJapanActivities (fmt : String → String → String) (trans : String → String)
    (api : Except Unit JapanResponse) (setup : Except Unit Unit)
    (frames : List FrameResult) : Except Unit (List Activity) :=
  match api with
  | Except.ok (JapanResponse.items l) =>
    Except.ok (japanValidFilter ((l.filterMap id).map (buildJapanActivity fmt trans)))
  | Except.ok JapanResponse.empty => fetchFromWebpage setup false (Except.ok []) frames
  | Except.ok JapanResponse.noItems => fetchFromWebpage setup false (Except.ok []) frames
  | Except.error _ => fetchFromWebpage setup false (Except.ok []) frames

/-- `fetchChinaActivities` (lines 187-290).  A falsy or unrecognized
response returns `[]` directly (lines 201-216) without consulting the
scraped source; only a thrown request reaches the fallback of lines
283-288, whose own error is caught to `[]`. -/
def fetchChinaActivities (api : Except Unit ChinaResponse)
    (setup : Except Unit Unit) (rlvrcCards : Except Unit (List RawCard)) :
    Except Unit (List Activity) :=
  match api with
  | Except.ok ChinaResponse.empty => Except.ok []
  | Except.ok ChinaResponse.unrecognized => Except.ok []
  | Except.ok (ChinaResponse.activityField l) =>
    Except.ok (chinaValidFilter ((l.filterMap id).map buildChinaActivity))
  | Except.ok (ChinaResponse.plainArray l) =>
    Except.ok (chinaValidFilter ((l.filterMap id).map buildChinaActivity))
  | Except.error _ =>
    match fetchFromWebpage setup true rlvrcCards [] with
    | Except.ok l => Except.ok l
    | Except.error _ => Except.ok []

/-- Start key of an event's parsed window, as read by the sort comparator's
day-relative branch (0 for an unparseable date, which cannot occur among
members of the future partition). -/
def rangeStartKey (now : Now) (a : Activity) : Int :=
  match parseTimeRange now a.date with
  | some r => r.start
  | none => 0

/-! ## Helper lemmas -/

lemma classify_of_ongoing_ne (mx : Nat) (now : Now) (acts : List Activity)
    (h : ongoingList now acts ≠ []) :
    getCurrentOrNearbyActivities mx now acts =
      (ongoingList now acts).map (withTag "当前活动") := by
  have hl : (ongoingList now acts).length > 0 := List.length_pos.mpr h
  rw [getCurrentOrNearbyActivities, if_pos hl]

lemma classify_of_ongoing_nil (mx : Nat) (now : Now) (acts : List Activity)
    (h : ongoingList now acts = []) :
    getCurrentOrNearbyActivities mx now acts =
      (if (prevNextResult now acts).length = 0 ∧ acts.length > 0 then
        if (futureSorted now acts).length > 0 then
          ((futureSorted now acts).take mx).map (withTag "即将到来")
        else if acts.length > 0 then
          (acts.take mx).map (withTag "活动列表")
        else prevNextResult now acts
      else prevNextResult now acts) := by
  rw [getCurrentOrNearbyActivities, if_neg]
  simp [h]

lemma tag_withTag (t : String) (a : Activity) : (withTag t a).tag = some t := rfl

lemma date_withTag (t : String) (a : Activity) : (withTag t a).date = a.date := rfl

lemma prevNextResult_eq_nil_iff (now : Now) (acts : List Activity) :
    prevNextResult now acts = [] ↔
      (pastList now acts).getLast? = none ∧ (futureSorted now acts).head? = none := by
  unfold prevNextResult
  rcases hL : (pastList now acts).getLast? with _ | p <;>
    rcases hH : (futureSorted now acts).head? with _ | n <;> simp

lemma mem_prevNextResult (now : Now) (acts : List Activity) (b : Activity)
    (hb : b ∈ prevNextResult now acts) :
    (∃ p, (pastList now acts).getLast? = some p ∧ b = withTag "上一个活动" p) ∨
    (∃ n, (futureSorted now acts).head? = some n ∧ b = withTag "下一个活动" n) := by
  unfold prevNextResult at hb
  rcases hL : (pastList now acts).getLast? with _ | p <;>
    rcases hH : (futureSorted now acts).head? with _ | n <;>
      rw [hL, hH] at hb <;> simp at hb
  · exact Or.inr ⟨n, rfl, hb⟩
  · exact Or.inl ⟨p, rfl, hb⟩
  · rcases hb with hb | hb
    · exact Or.inl ⟨p, rfl, hb⟩
    · exact Or.inr ⟨n, rfl, hb⟩

/-- Where a `上一个活动`-tagged output element can come from: only the
`past[past.length - 1]` pick. -/
lemma prev_tag_origin (mx : Nat) (now : Now) (acts : List Activity) (b : Activity)
    (hb : b ∈ getCurrentOrNearbyActivities mx now acts)
    (ht : b.tag = some "上一个活动") :
    ∃ p, (pastList now acts).getLast? = some p ∧ b = withTag "上一个活动" p := by
  rw [getCurrentOrNearbyActivities] at hb
  split at hb
  · rcases List.mem_map.mp hb with ⟨a, _, rfl⟩
    simp [withTag] at ht
  · split at hb
    · split at hb
      · rcases List.mem_map.mp hb with ⟨a, _, rfl⟩
        simp [withTag] at ht
      · split at hb
        · rcases List.mem_map.mp hb with ⟨a, _, rfl⟩
          simp [withTag] at ht
        · rcases mem_prevNextResult now acts b hb with h | ⟨n, _, rfl⟩
          · exact h
          · simp [withTag] at ht
    · rcases mem_prevNextResult now acts b hb with h | ⟨n, _, rfl⟩
      · exact h
      · simp [withTag] at ht

/-- Where a `下一个活动`-tagged output element can come from: only the
`future[0]` pick. -/
lemma next_tag_origin (mx : Nat) (now : Now) (acts : List Activity) (b : Activity)
    (hb : b ∈ getCurrentOrNearbyActivities mx now acts)
    (ht : b.tag = some "下一个活动") :
    ∃ n, (futureSorted now acts).head? = some n ∧ b = withTag "下一个活动" n := by
  rw [getCurrentOrNearbyActivities] at hb
  split at hb
  · rcases List.mem_map.mp hb with ⟨a, _, rfl⟩
    simp [withTag] at ht
  · split at hb
    · split at hb
      · rcases List.mem_map.mp hb with ⟨a, _, rfl⟩
        simp [withTag] at ht
      · split at hb
        · rcases List.mem_map.mp hb with ⟨a, _, rfl⟩
          simp [withTag] at ht
        · rcases mem_prevNextResult now acts b hb with ⟨p, _, rfl⟩ | h
          · simp [withTag] at ht
          · exact h
    · rcases mem_prevNextResult now acts b hb with ⟨p, _, rfl⟩ | h
      · simp [withTag] at ht
      · exact h

/-- Head of a stable insertion sort: on a list whose members all satisfy `P`,
when the order relation agrees with a numeric key on `P`-members, the head is
a key-minimal element and every element placed before it in the original list
has a strictly larger key (stability of ties). -/
lemma insertionSort_head_min {α : Type} (r : α → α → Prop) [DecidableRel r]
    (key : α → Int) (P : α → Prop)
    (hr : ∀ a b, P a → P b → (r a b ↔ key a ≤ key b)) :
    ∀ (l : List α), (∀ x ∈ l, P x) →
      ∀ n, (List.insertionSort r l).head? = some n →
        n ∈ l ∧ (∀ x ∈ l, key n ≤ key x) ∧
        ∃ l1 l2, l = l1 ++ n :: l2 ∧ ∀ x ∈ l1, key n < key x := by
  intro l
  induction l with
  | nil => intro _ n hn; simp [List.insertionSort] at hn
  | cons a l ih =>
    intro hP n hn
    rw [List.insertionSort] at hn
    rcases hs : List.insertionSort r l with _ | ⟨m, t⟩
    · rw [hs] at hn
      simp only [List.orderedInsert, List.head?] at hn
      injection hn with hn
      subst hn
      have hl : l = [] := by
        have hperm := List.perm_insertionSort r l
        rw [hs] at hperm
        exact hperm.symm.eq_nil
      subst hl
      exact ⟨List.mem_cons_self a [], by simp, [], [], rfl, by simp⟩
    · rw [hs] at hn
      have ihm := ih (fun x hx => hP x (List.mem_cons_of_mem a hx)) m (by rw [hs]; rfl)
      have Pa := hP a (List.mem_cons_self a l)
      have Pm := hP m (List.mem_cons_of_mem a ihm.1)
      rw [List.orderedInsert] at hn
      by_cases ham : r a m
      · rw [if_pos ham] at hn
        simp only [List.head?] at hn
        injection hn with hn
        subst hn
        have hkey : key a ≤ key m := (hr a m Pa Pm).mp ham
        refine ⟨List.mem_cons_self a l, ?_, [], l, rfl, by simp⟩
        intro x hx
        rcases List.mem_cons.mp hx with rfl | hx
        · exact le_refl _
        · exact le_trans hkey (ihm.2.1 x hx)
      · rw [if_neg ham] at hn
        simp only [List.head?] at hn
        injection hn with hn
        subst hn
        have hkey : key m < key a := by
          by_contra hcon
          push_neg at hcon
          exact ham ((hr a m Pa Pm).mpr hcon)
        refine ⟨List.mem_cons_of_mem a ihm.1, ?_, ?_⟩
        · intro x hx
          rcases List.mem_cons.mp hx with rfl | hx
          · exact le_of_lt hkey
          · exact ihm.2.1 x hx
        · rcases ihm.2.2 with ⟨l1, l2, hl12, hlt⟩
          refine ⟨a :: l1, l2, by rw [hl12]; rfl, ?_⟩
          intro x hx
          rcases List.mem_cons.mp hx with rfl | hx
          · exact hkey
          · exact hlt x hx

lemma parse_isSome_of_futurePred (now : Now) (a : Activity)
    (h : futurePred now a = true) : (parseTimeRange now a.date).isSome := by
  unfold futurePred at h
  rcases hp : parseTimeRange now a.date with _ | r
  · rw [hp] at h; simp at h
  · simp

lemma jsSortLe_iff_key (now : Now) (a b : Activity)
    (ha : isAbsShape a.date = false)
    (hpa : (parseTimeRange now a.date).isSome)
    (hpb : (parseTimeRange now b.date).isSome) :
    jsSortLe now a b ↔ rangeStartKey now a ≤ rangeStartKey now b := by
  rcases Option.isSome_iff_exists.mp hpa with ⟨ra, hra⟩
  rcases Option.isSome_iff_exists.mp hpb with ⟨rb, hrb⟩
  unfold jsSortLe jsSortCmp rangeStartKey
  rw [ha, hra, hrb]
  simp [sub_nonpos]

/-- Head of the sorted future partition on an all-bare-format input: the
earliest-starting future event, the first such in fetch order on ties. -/
lemma futureSorted_head_min (now : Now) (acts : List Activity)
    (hbare : ∀ a ∈ acts, isAbsShape a.date = false)
    (n : Activity) (hn : (futureSorted now acts).head? = some n) :
    n ∈ futureList now acts ∧
    (∀ x ∈ futureList now acts, rangeStartKey now n ≤ rangeStartKey now x) ∧
    ∃ l1 l2, futureList now acts = l1 ++ n :: l2 ∧
      ∀ x ∈ l1, rangeStartKey now n < rangeStartKey now x := by
  refine insertionSort_head_min (jsSortLe now) (rangeStartKey now)
    (fun x => isAbsShape x.date = false ∧ (parseTimeRange now x.date).isSome)
    ?_ (futureList now acts) ?_ n hn
  · intro a b hpa hpb
    exact jsSortLe_iff_key now a b hpa.1 hpa.2 hpb.2
  · intro x hx
    have hx' := List.mem_filter.mp hx
    exact ⟨hbare x hx'.1, parse_isSome_of_futurePred now x hx'.2⟩

lemma futureSorted_ne_nil (now : Now) (acts : List Activity)
    (h : futureList now acts ≠ []) : futureSorted now acts ≠ [] := by
  intro hs
  apply h
  have hperm := List.perm_insertionSort (jsSortLe now) (futureList now acts)
  unfold futureSorted at hs
  rw [hs] at hperm
  exact hperm.symm.eq_nil

lemma countP_prevNext_prev (now : Now) (acts : List Activity) :
    List.countP (fun b => decide (b.tag = some "上一个活动"))
      (prevNextResult now acts) ≤ 1 := by
  unfold prevNextResult
  rcases (pastList now acts).getLast? with _ | p <;>
    rcases (futureSorted now acts).head? with _ | n <;>
      simp [List.countP_cons, List.countP_nil, withTag]

lemma countP_prevNext_next (now : Now) (acts : List Activity) :
    List.countP (fun b => decide (b.tag = some "下一个活动"))
      (prevNextResult now acts) ≤ 1 := by
  unfold prevNextResult
  rcases (pastList now acts).getLast? with _ | p <;>
    rcases (futureSorted now acts).head? with _ | n <;>
      simp [List.countP_cons, List.countP_nil, withTag]

lemma countP_tagged_map_ne (t u : String) (l : List Activity) (h : t ≠ u) :
    List.countP (fun b => decide (b.tag = some u)) (l.map (withTag t)) = 0 := by
  rw [List.countP_eq_zero]
  intro b hb
  rcases List.mem_map.mp hb with ⟨a, _, rfl⟩
  simp [withTag, h]

/-! ## Claims -/

/-- Claim C1, counterexample.  With no ongoing events, two bare-clock past
events listed as [ends 09:00, ends 07:00] and `now` = 12:00, the classifier
emits as `Previous` the event ending 07:00 — the last element of the past
partition in fetch order — although the chronologically latest past element
is the one ending 09:00 (window end 540 > 420).  This refutes "the Previous
event is the chronologically latest element of the Past partition". -/
theorem claim1_counterexample :
    pastList ⟨2025, 6, 15, 12, 0⟩
        [{ date := "08:00 - 09:00", title := "A" }, { date := "06:00 - 07:00", title := "B" }] =
      [{ date := "08:00 - 09:00", title := "A" }, { date := "06:00 - 07:00", title := "B" }] ∧
    (parseTimeRange ⟨2025, 6, 15, 12, 0⟩ "08:00 - 09:00").map TimeRange.endM = some 540 ∧
    (parseTimeRange ⟨2025, 6, 15, 12, 0⟩ "06:00 - 07:00").map TimeRange.endM = some 420 ∧
    getCurrentOrNearbyActivities 10 ⟨2025, 6, 15, 12, 0⟩
        [{ date := "08:00 - 09:00", title := "A" }, { date := "06:00 - 07:00", title := "B" }] =
      [{ date := "06:00 - 07:00", title := "B", tag := some "上一个活动" }] := by
  decide

/-- Claim C1, amended: when no event is classified ongoing, the classifier
emits at most one `Previous`-tagged and at most one `Next`-tagged event, in
that fixed order, either possibly absent; the `Previous` event is the last
element of the Past partition in original fetch order (not necessarily the
chronologically latest); the `Next` event is the head of the
comparator-sorted Future partition which — when every event is in bare
clock-time format — is the earliest-starting Future element, with stable
tie-breaking (equal start keys keep original fetch order). -/
theorem claim1_amended (mx : Nat) (now : Now) (acts : List Activity)
    (h : ongoingList now acts = []) :
    (∀ b ∈ getCurrentOrNearbyActivities mx now acts, b.tag = some "上一个活动" →
      ∃ p, (pastList now acts).getLast? = some p ∧ b = withTag "上一个活动" p) ∧
    (∀ b ∈ getCurrentOrNearbyActivities mx now acts, b.tag = some "下一个活动" →
      ∃ n, (futureSorted now acts).head? = some n ∧ b = withTag "下一个活动" n) ∧
    (∀ p n, (pastList now acts).getLast? = some p →
      (futureSorted now acts).head? = some n →
      getCurrentOrNearbyActivities mx now acts =
        [withTag "上一个活动" p, withTag "下一个活动" n]) ∧
    (List.countP (fun b => decide (b.tag = some "上一个活动"))
        (getCurrentOrNearbyActivities mx now acts) ≤ 1) ∧
    (List.countP (fun b => decide (b.tag = some "下一个活动"))
        (getCurrentOrNearbyActivities mx now acts) ≤ 1) ∧
    ((∀ a ∈ acts, isAbsShape a.date = false) →
      ∀ n, (futureSorted now acts).head? = some n →
        n ∈ futureList now acts ∧
        (∀ x ∈ futureList now acts, rangeStartKey now n ≤ rangeStartKey now x) ∧
        ∃ l1 l2, futureList now acts = l1 ++ n :: l2 ∧
          ∀ x ∈ l1, rangeStartKey now n < rangeStartKey now x) := by
  refine ⟨fun b hb ht => prev_tag_origin mx now acts b hb ht,
    fun b hb ht => next_tag_origin mx now acts b hb ht, ?_, ?_, ?_,
    fun hbare n hn => futureSorted_head_min now acts hbare n hn⟩
  · intro p n hp hn
    rw [classify_of_ongoing_nil mx now acts h]
    have hres : prevNextResult now acts =
        [withTag "上一个活动" p, withTag "下一个活动" n] := by
      unfold prevNextResult
      rw [hp, hn]
      simp
    rw [hres]
    simp
  · rw [classify_of_ongoing_nil mx now acts h]
    split
    · split
      · exact (countP_tagged_map_ne _ _ _ (by decide)).le.trans (Nat.zero_le 1)
      · split
        · exact (countP_tagged_map_ne _ _ _ (by decide)).le.trans (Nat.zero_le 1)
        · exact countP_prevNext_prev now acts
    · exact countP_prevNext_prev now acts
  · rw [classify_of_ongoing_nil mx now acts h]
    split
    · split
      · exact (countP_tagged_map_ne _ _ _ (by decide)).le.trans (Nat.zero_le 1)
      · split
        · exact (countP_tagged_map_ne _ _ _ (by decide)).le.trans (Nat.zero_le 1)
        · exact countP_prevNext_next now acts
    · exact countP_prevNext_next now acts

/-- Claim C1 witness: a concrete no-ongoing input with one past and one
future bare-clock event, at `now` = 12:00, yields exactly
`[Previous, Next]` in that order. -/
theorem claim1_witness :
    getCurrentOrNearbyActivities 10 ⟨2025, 6, 15, 12, 0⟩
        [{ date := "08:00 - 09:00", title := "A" }, { date := "15:00 - 16:00", title := "C" }] =
      [withTag "上一个活动" { date := "08:00 - 09:00", title := "A" },
       withTag "下一个活动" { date := "15:00 - 16:00", title := "C" }] :=
  (claim1_amended 10 ⟨2025, 6, 15, 12, 0⟩
      [{ date := "08:00 - 09:00", title := "A" }, { date := "15:00 - 16:00", title := "C" }]
      (by decide)).2.2.1
    { date := "08:00 - 09:00", title := "A" } { date := "15:00 - 16:00", title := "C" }
    (by decide) (by decide)

/-- Claim C2: an absolute datetime-range string whose parsed end instant is
strictly before now makes `parseTimeRange` return null, and consequently no
classifier output carrying that date text is ever tagged `Previous`. -/
theorem claim2_past_abs_unparseable (now : Now) (s : String) (f : AbsFields)
    (hm : searchAbs s.toList = some f)
    (hlt : absEndInstant f < nowInstant now) :
    parseTimeRange now s = none ∧
    ∀ (mx : Nat) (acts : List Activity) (b : Activity),
      b ∈ getCurrentOrNearbyActivities mx now acts → b.date = s →
      b.tag ≠ some "上一个活动" := by
  have hnone : parseTimeRange now s = none := by
    unfold parseTimeRange
    rw [hm]
    simp [hlt]
  refine ⟨hnone, ?_⟩
  intro mx acts b hb hdate htag
  rcases prev_tag_origin mx now acts b hb htag with ⟨p, hp, rfl⟩
  have hpm : p ∈ pastList now acts := List.mem_of_mem_getLast? (by simp [hp])
  have hpp : pastPred now p = true := (List.mem_filter.mp hpm).2
  rw [date_withTag] at hdate
  unfold pastPred at hpp
  rw [hdate, hnone] at hpp
  simp at hpp

/-- Claim C2 witness: a 2020 absolute range is unparseable at a 2025 now. -/
theorem claim2_witness :
    parseTimeRange ⟨2025, 1, 1, 12, 0⟩ "2020-01-01 10:00 - 2020-01-02 11:00" = none :=
  (claim2_past_abs_unparseable ⟨2025, 1, 1, 12, 0⟩
      "2020-01-01 10:00 - 2020-01-02 11:00"
      ⟨2020, 1, 1, 10, 0, 2020, 1, 2, 11, 0⟩ (by decide) (by decide)).1

/-- Claim C3: an update cycle whose fetch yields zero events leaves the
cached event list unchanged while the last-update timestamp advances to the
current instant, for both locales. -/
theorem claim3_stale_cache (st : Snapshot) (now : Now) :
    (updateJapanActivities st [] now).events = st.events ∧
    (updateJapanActivities st [] now).lastUpdateTime = some now ∧
    (updateChinaActivities st [] now).events = st.events ∧
    (updateChinaActivities st [] now).lastUpdateTime = some now := by
  simp [updateJapanActivities, updateChinaActivities]

/-- Claim C6: a bare clock-time range whose textual end is at or before its
start gets its end wrapped forward by 1440 minutes, and every window the
parser returns has `end > start` (for the bare branch, under valid clock
fields `HH ≤ 23`, `MM ≤ 59`; the absolute branch unconditionally). -/
theorem claim6_midnight_wrap (now : Now) (s : String) (r : TimeRange)
    (hp : parseTimeRange now s = some r) :
    (searchAbs s.toList ≠ none → r.start < r.endM) ∧
    (∀ b, searchAbs s.toList = none → searchBare s.toList = some b →
      r.start = (b.sh : Int) * 60 + b.sm ∧
      ((b.eh : Int) * 60 + b.em ≤ (b.sh : Int) * 60 + b.sm →
        r.endM = (b.eh : Int) * 60 + b.em + 1440) ∧
      (b.sh ≤ 23 → b.sm ≤ 59 → r.start < r.endM)) := by
  unfold parseTimeRange at hp
  rcases ha : searchAbs s.toList with _ | f
  · rw [ha] at hp
    refine ⟨fun hcon => absurd rfl hcon, ?_⟩
    intro b _ hb
    rw [hb] at hp
    dsimp only at hp
    injection hp with hp
    subst hp
    refine ⟨rfl, ?_, ?_⟩
    · intro hle
      dsimp only
      rw [if_pos hle]
    · intro hsh hsm
      dsimp only
      by_cases hle : (b.eh : Int) * 60 + b.em ≤ (b.sh : Int) * 60 + b.sm
      · rw [if_pos hle]
        omega
      · rw [if_neg hle]
        omega
  · rw [ha] at hp
    dsimp only at hp
    refine ⟨fun _ => ?_, fun b hnone _ => Option.noConfusion hnone⟩
    by_cases h1 : absEndInstant f < nowInstant now
    · rw [if_pos h1] at hp
      cases hp
    · rw [if_neg h1] at hp
      by_cases h2 : absStartInstant f ≤ nowInstant now ∧ absEndInstant f ≥ nowInstant now
      · rw [if_pos h2] at hp
        injection hp with hp
        subst hp
        decide
      · rw [if_neg h2] at hp
        injection hp with hp
        subst hp
        dsimp only
        omega

/-- Claim C6 witness: `"23:00 - 01:00"` parses to start 1380, end 1500,
crossing midnight with `end > start`. -/
theorem claim6_witness :
    parseTimeRange ⟨2025, 6, 15, 12, 0⟩ "23:00 - 01:00" = some ⟨1380, 1500⟩ ∧
    (TimeRange.mk 1380 1500).start < (TimeRange.mk 1380 1500).endM := by
  refine ⟨by decide, ?_⟩
  have h := (claim6_midnight_wrap ⟨2025, 6, 15, 12, 0⟩ "23:00 - 01:00" ⟨1380, 1500⟩
      (by decide)).2 ⟨23, 0, 1, 0⟩ (by decide) (by decide)
  exact h.2.2 (by decide) (by decide)

/-- Claim C7: an absolute datetime-range string whose window contains now
parses to the full-day sentinel window start 0, end 1440. -/
theorem claim7_sentinel (now : Now) (s : String) (f : AbsFields)
    (hm : searchAbs s.toList = some f)
    (h1 : absStartInstant f ≤ nowInstant now)
    (h2 : nowInstant now ≤ absEndInstant f) :
    parseTimeRange now s = some ⟨0, 1440⟩ := by
  unfold parseTimeRange
  rw [hm]
  have hnot : ¬ absEndInstant f < nowInstant now := not_lt.mpr h2
  simp [hnot, h1, h2]

/-- Claim C7 witness: a range containing a 2025-01-01 noon now yields the
sentinel window. -/
theorem claim7_witness :
    parseTimeRange ⟨2025, 1, 1, 12, 0⟩ "2025-01-01 10:00 - 2025-01-02 11:00" =
      some ⟨0, 1440⟩ :=
  claim7_sentinel ⟨2025, 1, 1, 12, 0⟩ "2025-01-01 10:00 - 2025-01-02 11:00"
    ⟨2025, 1, 1, 10, 0, 2025, 1, 2, 11, 0⟩ (by decide) (by decide) (by decide)

/-- Claim C4, counterexample.  The date text
`"2025-01-01 10:00-2025-01-02 11:00"` matches the absolute datetime-range
regex (its separator `\s*-\s*` accepts a bare dash), and its window contains
`now` = 2025-01-01 12:00, so by the claim the event is ongoing; but the
ongoing filter re-splits the text on the three-character separator `' - '`,
finds a single part, and rejects it — the classifier returns the event under
the `Listing` fallback tag instead of `Ongoing`. -/
theorem claim4_counterexample :
    searchAbs "2025-01-01 10:00-2025-01-02 11:00".toList =
      some ⟨2025, 1, 1, 10, 0, 2025, 1, 2, 11, 0⟩ ∧
    absStartInstant ⟨2025, 1, 1, 10, 0, 2025, 1, 2, 11, 0⟩ ≤ nowInstant ⟨2025, 1, 1, 12, 0⟩ ∧
    nowInstant ⟨2025, 1, 1, 12, 0⟩ ≤ absEndInstant ⟨2025, 1, 1, 10, 0, 2025, 1, 2, 11, 0⟩ ∧
    getCurrentOrNearbyActivities 10 ⟨2025, 1, 1, 12, 0⟩
        [{ date := "2025-01-01 10:00-2025-01-02 11:00" }] =
      [{ date := "2025-01-01 10:00-2025-01-02 11:00", tag := some "活动列表" }] := by
  decide

/-- Claim C4, amended: the classifier's ongoing test agrees with
`startInstant <= now <= endInstant` for absolute-format events only when the
date text additionally splits on the exact `' - '` separator into two halves
that `new Date` can parse to the regex fields' instants (an absolute event
without that shape is never classified ongoing even when its window contains
now); for bare clock-time events it is
`currentMinuteOfDay ∈ [start, wrapped end]`; and whenever at least one event
passes the test, the classifier returns exactly all passing events tagged
`Ongoing`, skipping the Previous/Next computation. -/
theorem claim4_amended (mx : Nat) (now : Now) (acts : List Activity) :
    (∀ (a : Activity) (f : AbsFields) (p1 p2 : List Char),
      searchAbs a.date.toList = some f → isAbsShape a.date = true →
      splitSDS a.date.toList = [p1, p2] →
      jsDateParse (replaceFirstSpaceT p1) = some (absStartInstant f) →
      jsDateParse (replaceFirstSpaceT p2) = some (absEndInstant f) →
      (ongoingPred now a = true ↔
        (absStartInstant f ≤ nowInstant now ∧ nowInstant now ≤ absEndInstant f))) ∧
    (∀ (a : Activity) (b : BareFields),
      searchAbs a.date.toList = none → isAbsShape a.date = false →
      searchBare a.date.toList = some b →
      (ongoingPred now a = true ↔
        (currentMinutes now ≥ (b.sh : Int) * 60 + b.sm ∧
         currentMinutes now ≤
           (if (b.eh : Int) * 60 + b.em ≤ (b.sh : Int) * 60 + b.sm
            then (b.eh : Int) * 60 + b.em + 1440
            else (b.eh : Int) * 60 + b.em)))) ∧
    (ongoingList now acts ≠ [] →
      getCurrentOrNearbyActivities mx now acts =
        (ongoingList now acts).map (withTag "当前活动")) := by
  refine ⟨?_, ?_, fun h => classify_of_ongoing_ne mx now acts h⟩
  · intro a f p1 p2 hm hshape hsplit hjs1 hjs2
    have hpt : parseTimeRange now a.date =
        (if absEndInstant f < nowInstant now then none
         else if absStartInstant f ≤ nowInstant now ∧ absEndInstant f ≥ nowInstant now then
           some ⟨0, 1440⟩
         else some ⟨(f.sh : Int) * 60 + f.smi, (f.sh : Int) * 60 + f.smi + 1440⟩) := by
      unfold parseTimeRange
      rw [hm]
    by_cases hend : absEndInstant f < nowInstant now
    · have hnone : parseTimeRange now a.date = none := by rw [hpt, if_pos hend]
      unfold ongoingPred
      rw [hnone]
      simp
      omega
    · have hsome : ∃ rr, parseTimeRange now a.date = some rr := by
        rw [hpt, if_neg hend]
        by_cases h2 : absStartInstant f ≤ nowInstant now ∧ absEndInstant f ≥ nowInstant now
        · rw [if_pos h2]
          exact ⟨_, rfl⟩
        · rw [if_neg h2]
          exact ⟨_, rfl⟩
      rcases hsome with ⟨rr, hrr⟩
      unfold ongoingPred
      rw [hrr]
      simp only [hshape, if_true]
      rw [hsplit]
      simp [hjs1, hjs2]
  · intro a b hnone hshape hb
    have hrr : parseTimeRange now a.date =
        some ⟨(b.sh : Int) * 60 + b.sm,
          if (b.eh : Int) * 60 + b.em ≤ (b.sh : Int) * 60 + b.sm
          then (b.eh : Int) * 60 + b.em + 1440
          else (b.eh : Int) * 60 + b.em⟩ := by
      unfold parseTimeRange
      rw [hnone, hb]
    unfold ongoingPred
    rw [hrr]
    simp [hshape]

/-- Claim C4 witness: the well-formed range
`"2025-01-01 10:00 - 2025-01-02 11:00"` containing noon of 2025-01-01 passes
the ongoing test, and the classifier returns it alone, tagged `Ongoing`. -/
theorem claim4_witness :
    ongoingPred ⟨2025, 1, 1, 12, 0⟩
      { date := "2025-01-01 10:00 - 2025-01-02 11:00" } = true ∧
    getCurrentOrNearbyActivities 10 ⟨2025, 1, 1, 12, 0⟩
        [{ date := "2025-01-01 10:00 - 2025-01-02 11:00" }] =
      [{ date := "2025-01-01 10:00 - 2025-01-02 11:00", tag := some "当前活动" }] := by
  constructor
  · exact ((claim4_amended 10 ⟨2025, 1, 1, 12, 0⟩ []).1
      { date := "2025-01-01 10:00 - 2025-01-02 11:00" }
      ⟨2025, 1, 1, 10, 0, 2025, 1, 2, 11, 0⟩
      "2025-01-01 10:00".toList "2025-01-02 11:00".toList
      (by decide) (by decide) (by decide) (by decide) (by decide)).mpr
      ⟨by decide, by decide⟩
  · rw [(claim4_amended 10 ⟨2025, 1, 1, 12, 0⟩
      [{ date := "2025-01-01 10:00 - 2025-01-02 11:00" }]).2.2 (by decide)]
    decide

/-- Claim C5: when the Previous/Next step yields nothing and the raw list is
non-empty, the classifier prefers the first `maxCount` sorted-Future events
tagged `Upcoming`, else the first `maxCount` raw events tagged `Listing`
(unparseable dates included), and the output length is capped at `maxCount`
with order preserved. -/
theorem claim5_fallback (mx : Nat) (now : Now) (acts : List Activity)
    (h0 : ongoingList now acts = []) (h1 : prevNextResult now acts = [])
    (h2 : acts ≠ []) :
    getCurrentOrNearbyActivities mx now acts =
      (if futureSorted now acts ≠ [] then
        ((futureSorted now acts).take mx).map (withTag "即将到来")
      else (acts.take mx).map (withTag "活动列表")) ∧
    (getCurrentOrNearbyActivities mx now acts).length ≤ mx := by
  have hout := classify_of_ongoing_nil mx now acts h0
  rw [h1] at hout
  have hcond : (([] : List Activity)).length = 0 ∧ acts.length > 0 :=
    ⟨rfl, List.length_pos.mpr h2⟩
  rw [if_pos hcond] at hout
  constructor
  · rw [hout]
    by_cases hf : futureSorted now acts ≠ []
    · rw [if_pos hf, if_pos (List.length_pos.mpr hf)]
    · rw [if_neg hf]
      push_neg at hf
      rw [if_neg (by rw [hf]; simp), if_pos hcond.2]
  · rw [hout]
    split
    · rw [List.length_map]
      exact List.length_take_le _ _
    · split
      · rw [List.length_map]
        exact List.length_take_le _ _
      · simp

/-- Claim C5 witness: three unparseable "TBD" events with `maxCount` = 2
fall back to the `Listing` tag, capped at two, order preserved. -/
theorem claim5_witness :
    getCurrentOrNearbyActivities 2 ⟨2025, 6, 15, 12, 0⟩
        [{ date := "TBD", title := "X" }, { date := "TBD", title := "Y" },
         { date := "TBD", title := "Z" }] =
      [withTag "活动列表" { date := "TBD", title := "X" },
       withTag "活动列表" { date := "TBD", title := "Y" }] ∧
    (getCurrentOrNearbyActivities 2 ⟨2025, 6, 15, 12, 0⟩
        [{ date := "TBD", title := "X" }, { date := "TBD", title := "Y" },
         { date := "TBD", title := "Z" }]).length ≤ 2 := by
  have h := claim5_fallback 2 ⟨2025, 6, 15, 12, 0⟩
    [{ date := "TBD", title := "X" }, { date := "TBD", title := "Y" },
     { date := "TBD", title := "Z" }] (by decide) (by decide) (by decide)
  refine ⟨?_, h.2⟩
  rw [h.1]
  decide

/-- Claim C9: with no ongoing event and a non-empty Future partition the
output always contains a `Next`-tagged event, and no classifier output is
ever tagged `Upcoming` — the Upcoming fallback branch guard is
unsatisfiable. -/
theorem claim9_next_and_no_upcoming (mx : Nat) (now : Now) (acts : List Activity) :
    (ongoingList now acts = [] → futureList now acts ≠ [] →
      ∃ b ∈ getCurrentOrNearbyActivities mx now acts, b.tag = some "下一个活动") ∧
    (∀ b ∈ getCurrentOrNearbyActivities mx now acts, b.tag ≠ some "即将到来") := by
  constructor
  · intro h0 hf
    have hs : futureSorted now acts ≠ [] := futureSorted_ne_nil now acts hf
    rcases hH : (futureSorted now acts).head? with _ | n
    · exact absurd (List.head?_eq_none_iff.mp hH) hs
    · have hmem : withTag "下一个活动" n ∈ prevNextResult now acts := by
        unfold prevNextResult
        rw [hH]
        rcases (pastList now acts).getLast? with _ | p <;> simp
      have hne : prevNextResult now acts ≠ [] := by
        intro hcon
        rw [hcon] at hmem
        cases hmem
      have hout := classify_of_ongoing_nil mx now acts h0
      rw [if_neg (fun hc => hne (List.length_eq_zero.mp hc.1))] at hout
      exact ⟨withTag "下一个活动" n, by rw [hout]; exact hmem, rfl⟩
  · intro b hb htag
    rw [getCurrentOrNearbyActivities] at hb
    split at hb
    · rcases List.mem_map.mp hb with ⟨a, _, rfl⟩
      simp [withTag] at htag
    · split at hb
      · split at hb
        · rename_i hcond hflen
          have h1 : prevNextResult now acts = [] := List.length_eq_zero.mp hcond.1
          have h2 := (prevNextResult_eq_nil_iff now acts).mp h1
          have h3 : futureSorted now acts = [] := List.head?_eq_none_iff.mp h2.2
          rw [h3] at hflen
          simp at hflen
        · split at hb
          · rcases List.mem_map.mp hb with ⟨a, _, rfl⟩
            simp [withTag] at htag
          · rcases mem_prevNextResult now acts b hb with ⟨p, _, rfl⟩ | ⟨n, _, rfl⟩ <;>
              simp [withTag] at htag
      · rcases mem_prevNextResult now acts b hb with ⟨p, _, rfl⟩ | ⟨n, _, rfl⟩ <;>
          simp [withTag] at htag

/-- Claim C9 witness: a single future event at 15:00 with `now` = 12:00
produces a `Next`-tagged output element. -/
theorem claim9_witness :
    ∃ b ∈ getCurrentOrNearbyActivities 10 ⟨2025, 6, 15, 12, 0⟩
        [{ date := "15:00 - 16:00", title := "N" }],
      b.tag = some "下一个活动" :=
  (claim9_next_and_no_upcoming 10 ⟨2025, 6, 15, 12, 0⟩
    [{ date := "15:00 - 16:00", title := "N" }]).1 (by decide) (by decide)

/-- Claim C10: every element of the classifier output is some input event
with only the `tag` field replaced — tags are attached to shallow copies,
and the embedding of the classifier is a pure function of its input list. -/
theorem claim10_pure (mx : Nat) (now : Now) (acts : List Activity) :
    ∀ b ∈ getCurrentOrNearbyActivities mx now acts,
      ∃ a ∈ acts, ∃ t, b = { a with tag := some t } := by
  intro b hb
  rw [getCurrentOrNearbyActivities] at hb
  split at hb
  · rcases List.mem_map.mp hb with ⟨a, ha, rfl⟩
    exact ⟨a, (List.mem_filter.mp ha).1, "当前活动", rfl⟩
  · split at hb
    · split at hb
      · rcases List.mem_map.mp hb with ⟨a, ha, rfl⟩
        have h1 : a ∈ futureSorted now acts := List.mem_of_mem_take ha
        unfold futureSorted at h1
        have h2 := (List.mem_insertionSort (jsSortLe now)).mp h1
        exact ⟨a, (List.mem_filter.mp h2).1, "即将到来", rfl⟩
      · split at hb
        · rcases List.mem_map.mp hb with ⟨a, ha, rfl⟩
          exact ⟨a, List.mem_of_mem_take ha, "活动列表", rfl⟩
        · rcases mem_prevNextResult now acts b hb with ⟨p, hp, rfl⟩ | ⟨n, hn, rfl⟩
          · have hm : p ∈ pastList now acts := List.mem_of_mem_getLast? (by simp [hp])
            exact ⟨p, (List.mem_filter.mp hm).1, "上一个活动", rfl⟩
          · have h1 : n ∈ futureSorted now acts := List.mem_of_mem_head? (by simp [hn])
            unfold futureSorted at h1
            have h2 := (List.mem_insertionSort (jsSortLe now)).mp h1
            exact ⟨n, (List.mem_filter.mp h2).1, "下一个活动", rfl⟩
    · rcases mem_prevNextResult now acts b hb with ⟨p, hp, rfl⟩ | ⟨n, hn, rfl⟩
      · have hm : p ∈ pastList now acts := List.mem_of_mem_getLast? (by simp [hp])
        exact ⟨p, (List.mem_filter.mp hm).1, "上一个活动", rfl⟩
      · have h1 : n ∈ futureSorted now acts := List.mem_of_mem_head? (by simp [hn])
        unfold futureSorted at h1
        have h2 := (List.mem_insertionSort (jsSortLe now)).mp h1
        exact ⟨n, (List.mem_filter.mp h2).1, "下一个活动", rfl⟩

/-- Claim C10 witness: the single Listing output for an unparseable input is
that input event with only its tag set. -/
theorem claim10_witness :
    ∃ a ∈ [({ date := "TBD", title := "X" } : Activity)], ∃ t,
      withTag "活动列表" { date := "TBD", title := "X" } =
        { a with tag := some t } :=
  claim10_pure 10 ⟨2025, 6, 15, 12, 0⟩ [{ date := "TBD", title := "X" }]
    (withTag "活动列表" { date := "TBD", title := "X" }) (by decide)

lemma fetchFromWebpage_ok (setup : Except Unit Unit) (isRlvrc : Bool)
    (cards : Except Unit (List RawCard)) (frames : List FrameResult) :
    ∃ l, fetchFromWebpage setup isRlvrc cards frames = Except.ok l := by
  unfold fetchFromWebpage
  rcases setup with _ | _
  · exact ⟨[], rfl⟩
  · cases isRlvrc
    · exact ⟨scanFrames frames, rfl⟩
    · rcases cards with _ | c
      · exact ⟨[], rfl⟩
      · exact ⟨rlvrcKeywordFilter (c.map buildCardActivity), rfl⟩

/-- Claim C8, counterexample.  For the china locale a malformed (non-throwing)
structured response does NOT trigger the scraped-page fallback: with an
unrecognized response shape the fetcher returns `ok []` even though the
scraped source would have produced a non-empty, filter-surviving event —
refuting "a failure or malformed response from the structured source triggers
the scraped-page fallback" for every locale. -/
theorem claim8_counterexample :
    fetchChinaActivities (Except.ok ChinaResponse.unrecognized) (Except.ok ())
        (Except.ok [{ title := some "Dance Night", time := some "20:00 - 22:00",
                      description := some "party" }]) = Except.ok [] ∧
    fetchFromWebpage (Except.ok ()) true
        (Except.ok [{ title := some "Dance Night", time := some "20:00 - 22:00",
                      description := some "party" }]) [] =
      Except.ok [{ date := "20:00 - 22:00", title := "Dance Night",
                   description := "party" }] ∧
    ([] : List Activity) ≠
      [{ date := "20:00 - 22:00", title := "Dance Night", description := "party" }] :=
  ⟨rfl, rfl, by decide⟩

/-- Claim C8, amended: neither acquisition function can raise to its caller
— every oracle outcome yields `ok`; a thrown structured request triggers the
scraped-page fallback for both locales, and for the japan locale a malformed
response does too, while for the china locale a malformed response yields
the empty sequence directly without consulting the scraped source; when all
consulted sources fail or filter to nothing the result is the empty
sequence, never a propagated exception. -/
theorem claim8_amended :
    (∀ fmt trans api setup frames, ∃ l,
      fetchJapanActivities fmt trans api setup frames = Except.ok l) ∧
    (∀ api setup cards, ∃ l, fetchChinaActivities api setup cards = Except.ok l) ∧
    (∀ fmt trans setup frames e,
      fetchJapanActivities fmt trans (Except.error e) setup frames =
        fetchFromWebpage setup false (Except.ok []) frames) ∧
    (∀ fmt trans setup frames,
      fetchJapanActivities fmt trans (Except.ok JapanResponse.noItems) setup frames =
        fetchFromWebpage setup false (Except.ok []) frames) ∧
    (∀ setup cards e,
      fetchChinaActivities (Except.error e) setup cards =
        (match fetchFromWebpage setup true cards [] with
          | Except.ok l => Except.ok l
          | Except.error _ => Except.ok [])) ∧
    (∀ setup cards,
      fetchChinaActivities (Except.ok ChinaResponse.unrecognized) setup cards =
        Except.ok []) := by
  refine ⟨?_, ?_, fun _ _ _ _ _ => rfl, fun _ _ _ _ => rfl,
    fun _ _ _ => rfl, fun _ _ => rfl⟩
  · intro fmt trans api setup frames
    rcases api with _ | r
    · exact fetchFromWebpage_ok setup false (Except.ok []) frames
    · rcases r with _ | _ | l
      · exact fetchFromWebpage_ok setup false (Except.ok []) frames
      · exact fetchFromWebpage_ok setup false (Except.ok []) frames
      · exact ⟨_, rfl⟩
  · intro api setup cards
    rcases api with _ | r
    · rcases fetchFromWebpage_ok setup true cards [] with ⟨l, hl⟩
      exact ⟨l, by unfold fetchChinaActivities; rw [hl]⟩
    · rcases r with _ | l | l | _
      · exact ⟨[], rfl⟩
      · exact ⟨_, rfl⟩
      · exact ⟨_, rfl⟩
      · exact ⟨[], rfl⟩
